import Mathlib

/-!
Shallow embedding of `CodeSample-2D_Line_of_Sight.cpp`.

The repository is a single C++ file providing a 2D vector type `Vec2D`
(dot product, magnitude, normalization, tolerant equality, addition,
subtraction) and a `Camera2D` with a cone-of-vision visibility query
`CanSeeTarget`.  C++ `float` arithmetic is modelled by real arithmetic,
`sqrtf` by `Real.sqrt` and `std::acos` by `Real.arccos`; source names are
kept.  The C++ `if`-based control flow is mirrored with (classical)
if-then-else, and the boolean results of the source are modelled as
`Bool` via `decide`.
-/

open Real

/-- Embeds `const float MAX_FLOAT_TOLERANCE = 0.0001f`. -/
def MAX_FLOAT_TOLERANCE : ℝ := 0.0001

/-- Embeds `class Vec2D` with fields `m_x`, `m_y`. -/
structure Vec2D where
  x : ℝ
  y : ℝ

/-- Embeds `Vec2D::DotProduct`: `m_x * vecIn.GetX() + m_y * vecIn.GetY()`. -/
def Vec2D.DotProduct (v vecIn : Vec2D) : ℝ :=
  v.x * vecIn.x + v.y * vecIn.y

/-- Embeds `Vec2D::GetMagnitude`: `sqrtf((m_x*m_x) + (m_y*m_y))`. -/
noncomputable def Vec2D.GetMagnitude (v : Vec2D) : ℝ :=
  Real.sqrt (v.x * v.x + v.y * v.y)

open Classical in
/-- Embeds `Vec2D::GetNormalized`: the result starts as the
default-constructed `(0,0)` and is overwritten by the componentwise
division only when the magnitude is nonzero. -/
noncomputable def Vec2D.GetNormalized (v : Vec2D) : Vec2D :=
  if v.GetMagnitude ≠ 0 then ⟨v.x / v.GetMagnitude, v.y / v.GetMagnitude⟩
  else ⟨0, 0⟩

/-- Embeds `Vec2D::operator==`: componentwise comparison within
`MAX_FLOAT_TOLERANCE`. -/
def Vec2D.veq (v rhs : Vec2D) : Prop :=
  MAX_FLOAT_TOLERANCE > |v.x - rhs.x| ∧ MAX_FLOAT_TOLERANCE > |v.y - rhs.y|

/-- Embeds `Vec2D::operator+`. -/
instance : Add Vec2D :=
  ⟨fun v rhs => ⟨v.x + rhs.x, v.y + rhs.y⟩⟩

/-- Embeds `Vec2D::operator-`. -/
instance : Sub Vec2D :=
  ⟨fun v rhs => ⟨v.x - rhs.x, v.y - rhs.y⟩⟩

lemma Vec2D.add_def (a b : Vec2D) : a + b = ⟨a.x + b.x, a.y + b.y⟩ := rfl

lemma Vec2D.sub_def (a b : Vec2D) : a - b = ⟨a.x - b.x, a.y - b.y⟩ := rfl

/-- Embeds `class Camera2D` with fields `m_position`, `m_orientation`,
`m_fieldOfView`, `m_viewDistance`. -/
structure Camera2D where
  position : Vec2D
  orientation : Vec2D
  fieldOfView : ℝ
  viewDistance : ℝ

/-- Embeds `Camera2D::SetPosition`. -/
def Camera2D.SetPosition (c : Camera2D) (position : Vec2D) : Camera2D :=
  { c with position := position }

/-- Embeds `Camera2D::SetOrientation`: stores the normalized input. -/
noncomputable def Camera2D.SetOrientation (c : Camera2D) (o : Vec2D) : Camera2D :=
  { c with orientation := o.GetNormalized }

/-- Embeds `Camera2D::SetFieldOfView`: stores the raw radians value. -/
def Camera2D.SetFieldOfView (c : Camera2D) (angleRad : ℝ) : Camera2D :=
  { c with fieldOfView := angleRad }

/-- Embeds `Camera2D::SetViewDistance`. -/
def Camera2D.SetViewDistance (c : Camera2D) (distance : ℝ) : Camera2D :=
  { c with viewDistance := distance }

/-- Embeds the `Camera2D` constructor: the member initializer list stores
`position`, the default-constructed orientation `(0,0)`,
`std::abs(fieldOfView)` and `std::abs(viewDistance)`, and the body then
calls `SetOrientation(orientation)`. -/
noncomputable def Camera2D.create (position orientation : Vec2D)
    (fieldOfView viewDistance : ℝ) : Camera2D :=
  Camera2D.SetOrientation ⟨position, ⟨0, 0⟩, |fieldOfView|, |viewDistance|⟩ orientation

open Classical in
/-- Embeds `Camera2D::CanSeeTarget`: return false on (tolerant) position
coincidence; otherwise compute the vector and distance to the target,
leave `targetVisible` false when out of range, and in range compare the
`acos` angle strictly against half the field of view. -/
noncomputable def Camera2D.CanSeeTarget (c : Camera2D) (targetPosition : Vec2D) : Bool :=
  if Vec2D.veq targetPosition c.position then false
  else if (targetPosition - c.position).GetMagnitude ≤ c.viewDistance then
    decide (Real.arccos (c.orientation.DotProduct (targetPosition - c.position) /
      (targetPosition - c.position).GetMagnitude) < c.fieldOfView / 2)
  else false

/-! Basic evaluation lemmas for the embedding. -/

lemma Camera2D.create_position (p o : Vec2D) (f d : ℝ) :
    (Camera2D.create p o f d).position = p := rfl

lemma Camera2D.create_orientation (p o : Vec2D) (f d : ℝ) :
    (Camera2D.create p o f d).orientation = o.GetNormalized := rfl

lemma Camera2D.create_fieldOfView (p o : Vec2D) (f d : ℝ) :
    (Camera2D.create p o f d).fieldOfView = |f| := rfl

lemma Camera2D.create_viewDistance (p o : Vec2D) (f d : ℝ) :
    (Camera2D.create p o f d).viewDistance = |d| := rfl

lemma Camera2D.canSee_of_veq {c : Camera2D} {t : Vec2D}
    (h : Vec2D.veq t c.position) : c.CanSeeTarget t = false := by
  unfold Camera2D.CanSeeTarget
  rw [if_pos h]

lemma Camera2D.canSee_of_out_of_range {c : Camera2D} {t : Vec2D}
    (h : ¬ (t - c.position).GetMagnitude ≤ c.viewDistance) :
    c.CanSeeTarget t = false := by
  by_cases hv : Vec2D.veq t c.position
  · exact Camera2D.canSee_of_veq hv
  · unfold Camera2D.CanSeeTarget
    rw [if_neg hv, if_neg h]

lemma Camera2D.canSee_true_iff {c : Camera2D} {t : Vec2D}
    (hne : ¬ Vec2D.veq t c.position)
    (hd : (t - c.position).GetMagnitude ≤ c.viewDistance) :
    c.CanSeeTarget t = true ↔
      Real.arccos (c.orientation.DotProduct (t - c.position) /
        (t - c.position).GetMagnitude) < c.fieldOfView / 2 := by
  unfold Camera2D.CanSeeTarget
  rw [if_neg hne, if_pos hd, decide_eq_true_iff]

lemma Camera2D.canSee_false_iff {c : Camera2D} {t : Vec2D}
    (hne : ¬ Vec2D.veq t c.position)
    (hd : (t - c.position).GetMagnitude ≤ c.viewDistance) :
    c.CanSeeTarget t = false ↔
      ¬ Real.arccos (c.orientation.DotProduct (t - c.position) /
        (t - c.position).GetMagnitude) < c.fieldOfView / 2 := by
  unfold Camera2D.CanSeeTarget
  rw [if_neg hne, if_pos hd, decide_eq_false_iff_not]

lemma Camera2D.create_eq_mk (p o : Vec2D) (f d : ℝ) :
    Camera2D.create p o f d = Camera2D.mk p o.GetNormalized |f| |d| := rfl

lemma Vec2D.sub_mk (a b c d : ℝ) :
    (Vec2D.mk a b) - (Vec2D.mk c d) = ⟨a - c, b - d⟩ := rfl

lemma Vec2D.not_veq_of_x {a b c d : ℝ} (h : MAX_FLOAT_TOLERANCE ≤ |a - c|) :
    ¬ Vec2D.veq ⟨a, b⟩ ⟨c, d⟩ :=
  fun hv => absurd hv.1 (not_lt.mpr h)

lemma Vec2D.not_veq_of_y {a b c d : ℝ} (h : MAX_FLOAT_TOLERANCE ≤ |b - d|) :
    ¬ Vec2D.veq ⟨a, b⟩ ⟨c, d⟩ :=
  fun hv => absurd hv.2 (not_lt.mpr h)

lemma Vec2D.magnitude_eval (a b c : ℝ) (hc : 0 ≤ c) (h : a * a + b * b = c * c) :
    (Vec2D.mk a b).GetMagnitude = c := by
  show Real.sqrt (a * a + b * b) = c
  rw [h, Real.sqrt_mul_self hc]

lemma Vec2D.magnitude_le (a b c : ℝ) (hc : 0 ≤ c) (h : a * a + b * b ≤ c * c) :
    (Vec2D.mk a b).GetMagnitude ≤ c := by
  show Real.sqrt (a * a + b * b) ≤ c
  calc Real.sqrt (a * a + b * b) ≤ Real.sqrt (c * c) := Real.sqrt_le_sqrt h
    _ = c := Real.sqrt_mul_self hc

lemma Vec2D.normalized_zero : (Vec2D.mk 0 0).GetNormalized = ⟨0, 0⟩ := by
  unfold Vec2D.GetNormalized Vec2D.GetMagnitude
  norm_num

lemma Vec2D.normalized_unit_up : (Vec2D.mk 0 1).GetNormalized = ⟨0, 1⟩ := by
  have h1 : (Vec2D.mk 0 1).GetMagnitude = 1 :=
    Vec2D.magnitude_eval 0 1 1 (by norm_num) (by norm_num)
  unfold Vec2D.GetNormalized
  rw [h1]
  norm_num

lemma Vec2D.magnitude_pos {v : Vec2D} (hv : v ≠ ⟨0, 0⟩) : 0 < v.GetMagnitude := by
  apply Real.sqrt_pos.mpr
  rcases v with ⟨a, b⟩
  show 0 < a * a + b * b
  by_contra hle
  push_neg at hle
  have ha : a = 0 := by nlinarith [mul_self_nonneg a, mul_self_nonneg b]
  have hb : b = 0 := by nlinarith [mul_self_nonneg a, mul_self_nonneg b]
  exact hv (by rw [ha, hb])

lemma Vec2D.magnitude_normalized {v : Vec2D} (hv : v ≠ ⟨0, 0⟩) :
    v.GetNormalized.GetMagnitude = 1 := by
  have hm := Vec2D.magnitude_pos hv
  have hm0 : v.GetMagnitude ≠ 0 := ne_of_gt hm
  have hS : 0 ≤ v.x * v.x + v.y * v.y :=
    add_nonneg (mul_self_nonneg v.x) (mul_self_nonneg v.y)
  have hmm : v.GetMagnitude * v.GetMagnitude = v.x * v.x + v.y * v.y :=
    Real.mul_self_sqrt hS
  unfold Vec2D.GetNormalized
  rw [if_pos hm0]
  show Real.sqrt (v.x / v.GetMagnitude * (v.x / v.GetMagnitude) +
    v.y / v.GetMagnitude * (v.y / v.GetMagnitude)) = 1
  have key : v.x / v.GetMagnitude * (v.x / v.GetMagnitude) +
      v.y / v.GetMagnitude * (v.y / v.GetMagnitude) = 1 := by
    field_simp
    nlinarith [hmm]
  rw [key, Real.sqrt_one]

lemma Vec2D.magnitude_ne_zero_of_not_veq {t p : Vec2D} (h : ¬ Vec2D.veq t p) :
    (t - p).GetMagnitude ≠ 0 := by
  intro h0
  apply h
  have h0' : Real.sqrt ((t.x - p.x) * (t.x - p.x) + (t.y - p.y) * (t.y - p.y)) = 0 := h0
  have hsum : (t.x - p.x) * (t.x - p.x) + (t.y - p.y) * (t.y - p.y) ≤ 0 :=
    Real.sqrt_eq_zero'.mp h0'
  have hx : t.x - p.x = 0 := by
    nlinarith [mul_self_nonneg (t.x - p.x), mul_self_nonneg (t.y - p.y)]
  have hy : t.y - p.y = 0 := by
    nlinarith [mul_self_nonneg (t.x - p.x), mul_self_nonneg (t.y - p.y)]
  unfold Vec2D.veq MAX_FLOAT_TOLERANCE
  rw [hx, hy]
  norm_num

lemma div_magnitude_eq_sqrt {a b : ℝ} (hb : 0 ≤ b) :
    b / (Vec2D.mk a b).GetMagnitude = Real.sqrt (b * b / (a * a + b * b)) := by
  show b / Real.sqrt (a * a + b * b) = _
  rw [Real.sqrt_div (mul_self_nonneg b), Real.sqrt_mul_self hb]

lemma sqrt_half_eq : Real.sqrt (1 / 2) = Real.sqrt 2 / 2 := by
  rw [show (1 : ℝ) / 2 = (Real.sqrt 2 / 2) ^ 2 by
    rw [div_pow, Real.sq_sqrt] <;> norm_num]
  exact Real.sqrt_sq (by positivity)

lemma arccos_sqrt_half : Real.arccos (Real.sqrt (1 / 2)) = Real.pi / 4 := by
  rw [sqrt_half_eq, ← Real.cos_pi_div_four]
  exact Real.arccos_cos (by linarith [Real.pi_pos]) (by linarith [Real.pi_pos])

lemma arccos_lt_of_gt {s t : ℝ} (hs : -1 ≤ s) (hst : s < t) (ht : t ≤ 1) :
    Real.arccos t < Real.arccos s :=
  Real.strictAntiOn_arccos ⟨hs, hst.le.trans ht⟩ ⟨hs.trans hst.le, ht⟩ hst

/-! Claims. -/

/-- C6: normalizing the zero vector returns the zero vector `(0,0)`
rather than dividing by zero or signaling an error. -/
theorem getNormalized_zero_eq_zero : (Vec2D.mk 0 0).GetNormalized = ⟨0, 0⟩ :=
  Vec2D.normalized_zero

/-- C8: vector addition and subtraction are inverses within the
per-component tolerance: for all vectors `a` and `b`, `(a + b) - b`
equals `a` under `Vec2D.veq`. -/
theorem add_sub_inverse_within_tolerance (a b : Vec2D) : Vec2D.veq (a + b - b) a := by
  have h : a + b - b = a := by
    rw [Vec2D.add_def, Vec2D.sub_def]
    cases a with
    | mk ax ay =>
      simp only [Vec2D.mk.injEq]
      constructor <;> ring
  rw [h]
  unfold Vec2D.veq MAX_FLOAT_TOLERANCE
  norm_num

/-- C5: the constructor stores the absolute value of the `fieldOfView`
and `viewDistance` arguments (a negative input becomes positive), while
`SetFieldOfView` stores the raw radians value without taking the
absolute value. -/
theorem constructor_abs_setter_raw (p o : Vec2D) (f d a : ℝ) (c : Camera2D) :
    (Camera2D.create p o f d).fieldOfView = |f| ∧
    (Camera2D.create p o f d).viewDistance = |d| ∧
    (f < 0 → (Camera2D.create p o f d).fieldOfView = -f) ∧
    (c.SetFieldOfView a).fieldOfView = a := by
  refine ⟨rfl, rfl, ?_, rfl⟩
  intro hf
  rw [Camera2D.create_fieldOfView, abs_of_neg hf]

/-- Witness for C5 at concrete inputs: a constructor argument of `-2`
is stored as `2`, while `SetFieldOfView (-2)` stores `-2`. -/
theorem constructor_abs_setter_raw_witness :
    (Camera2D.create ⟨0, 0⟩ ⟨0, 1⟩ (-2) 100).fieldOfView = 2 ∧
    ((Camera2D.create ⟨0, 0⟩ ⟨0, 1⟩ (-2) 100).SetFieldOfView (-2)).fieldOfView = -2 := by
  have h := constructor_abs_setter_raw ⟨0, 0⟩ ⟨0, 1⟩ (-2) 100 (-2)
    (Camera2D.create ⟨0, 0⟩ ⟨0, 1⟩ (-2) 100)
  refine ⟨?_, h.2.2.2⟩
  have h3 := h.2.2.1 (by norm_num)
  rw [h3]
  norm_num

/-- C3: `CanSeeTarget` returns false whenever the target position equals
the camera position under the tolerant `Vec2D` equality; in particular a
camera never sees its own exact position. -/
theorem canSeeTarget_self_position (c : Camera2D) (t : Vec2D) :
    (Vec2D.veq t c.position → c.CanSeeTarget t = false) ∧
    c.CanSeeTarget c.position = false := by
  constructor
  · exact Camera2D.canSee_of_veq
  · apply Camera2D.canSee_of_veq
    unfold Vec2D.veq MAX_FLOAT_TOLERANCE
    norm_num

/-- Witness for C3: a concrete camera at `(1,2)` does not see the
target `(1,2)` coinciding with its own position. -/
theorem canSeeTarget_self_position_witness :
    (Camera2D.create ⟨1, 2⟩ ⟨0, 1⟩ 3 100).CanSeeTarget ⟨1, 2⟩ = false := by
  apply (canSeeTarget_self_position (Camera2D.create ⟨1, 2⟩ ⟨0, 1⟩ 3 100) ⟨1, 2⟩).1
  rw [Camera2D.create_position]
  unfold Vec2D.veq MAX_FLOAT_TOLERANCE
  norm_num

/-- C7: for every non-zero vector `v`, the magnitude of its normalized
form is within the tolerance `MAX_FLOAT_TOLERANCE` of `1`. -/
theorem magnitude_normalized_approx_one (v : Vec2D) (hv : v ≠ ⟨0, 0⟩) :
    |v.GetNormalized.GetMagnitude - 1| < MAX_FLOAT_TOLERANCE := by
  rw [Vec2D.magnitude_normalized hv]
  unfold MAX_FLOAT_TOLERANCE
  norm_num

/-- Witness for C7 at the concrete non-zero vector `(3,4)`. -/
theorem magnitude_normalized_approx_one_witness :
    |(Vec2D.mk 3 4).GetNormalized.GetMagnitude - 1| < MAX_FLOAT_TOLERANCE := by
  apply magnitude_normalized_approx_one
  intro h
  have hx : (3 : ℝ) = 0 := congrArg Vec2D.x h
  norm_num at hx

/-- C4 counterexample: constructing a camera with the zero orientation
vector stores an orientation that is the raw zero input itself and has
magnitude `0`, not `1`, so the stored orientation is not always a
unit-length vector. -/
theorem orientation_unit_invariant_counterexample :
    (Camera2D.create ⟨0, 0⟩ ⟨0, 0⟩ 3 1).orientation = ⟨0, 0⟩ ∧
    (Camera2D.create ⟨0, 0⟩ ⟨0, 0⟩ 3 1).orientation.GetMagnitude = 0 := by
  have h : (Camera2D.create ⟨0, 0⟩ ⟨0, 0⟩ 3 1).orientation = ⟨0, 0⟩ := by
    rw [Camera2D.create_orientation, Vec2D.normalized_zero]
  refine ⟨h, ?_⟩
  rw [h]
  exact Vec2D.magnitude_eval 0 0 0 le_rfl (by norm_num)

/-- C4 (amended): the constructor and `SetOrientation` always store the
normalized form of the supplied orientation vector, so the stored
orientation is unit length for every non-zero input; the zero input
stores the zero vector. -/
theorem orientation_normalized_at_assignment (p o : Vec2D) (f d : ℝ) (c : Camera2D) :
    (Camera2D.create p o f d).orientation = o.GetNormalized ∧
    (c.SetOrientation o).orientation = o.GetNormalized ∧
    (o ≠ ⟨0, 0⟩ → (Camera2D.create p o f d).orientation.GetMagnitude = 1) := by
  refine ⟨rfl, rfl, ?_⟩
  intro ho
  rw [Camera2D.create_orientation]
  exact Vec2D.magnitude_normalized ho

/-- Witness for C4 (amended) at the concrete non-unit input `(3,4)`:
the stored orientation has magnitude `1`. -/
theorem orientation_normalized_at_assignment_witness :
    (Camera2D.create ⟨0, 0⟩ ⟨3, 4⟩ 3 100).orientation.GetMagnitude = 1 := by
  apply (orientation_normalized_at_assignment ⟨0, 0⟩ ⟨3, 4⟩ 3 100
    (Camera2D.create ⟨0, 0⟩ ⟨3, 4⟩ 3 100)).2.2
  intro h
  have hx : (3 : ℝ) = 0 := congrArg Vec2D.x h
  norm_num at hx

/-- C9: when the stored field of view is non-positive, `CanSeeTarget`
returns false for every target, because the angular test is a strict
comparison and `arccos` never returns a negative angle. -/
theorem canSeeTarget_nonpositive_fov (c : Camera2D) (t : Vec2D)
    (h : c.fieldOfView ≤ 0) : c.CanSeeTarget t = false := by
  by_cases hv : Vec2D.veq t c.position
  · exact Camera2D.canSee_of_veq hv
  · by_cases hd : (t - c.position).GetMagnitude ≤ c.viewDistance
    · rw [Camera2D.canSee_false_iff hv hd]
      intro hlt
      have h0 := Real.arccos_nonneg (c.orientation.DotProduct (t - c.position) /
        (t - c.position).GetMagnitude)
      linarith
    · exact Camera2D.canSee_of_out_of_range hd

/-- Witness for C9: a camera whose field of view has been set to `0` via
`SetFieldOfView` does not see a target directly along its orientation
and within view distance. -/
theorem canSeeTarget_nonpositive_fov_witness :
    ((Camera2D.create ⟨0, 0⟩ ⟨0, 1⟩ 3 100).SetFieldOfView 0).CanSeeTarget ⟨0, 50⟩ = false := by
  apply canSeeTarget_nonpositive_fov
  show (0 : ℝ) ≤ 0
  exact le_rfl

/-- C10: with a zero orientation vector, the divisor of the `arccos`
argument — the distance to the target — is still nonzero past the
self-position check, the dot product is `0`, the angle is
`arccos 0 = π/2`, and an in-range non-coincident target is visible
exactly when the field of view exceeds `π`. -/
theorem canSeeTarget_zero_orientation (c : Camera2D) (t : Vec2D)
    (ho : c.orientation = ⟨0, 0⟩) (hne : ¬ Vec2D.veq t c.position)
    (hd : (t - c.position).GetMagnitude ≤ c.viewDistance) :
    (t - c.position).GetMagnitude ≠ 0 ∧
    (c.CanSeeTarget t = true ↔ Real.pi < c.fieldOfView) := by
  refine ⟨Vec2D.magnitude_ne_zero_of_not_veq hne, ?_⟩
  rw [Camera2D.canSee_true_iff hne hd, ho]
  have hdot : (Vec2D.mk 0 0).DotProduct (t - c.position) = 0 := by
    show (0 : ℝ) * (t - c.position).x + 0 * (t - c.position).y = 0
    ring
  rw [hdot, zero_div, Real.arccos_zero]
  constructor <;> intro h <;> linarith

/-- Witness for C10: a camera built with the zero orientation, field of
view `4 > π` and view distance `100` sees the in-range target `(0,50)`. -/
theorem canSeeTarget_zero_orientation_witness :
    (Camera2D.create ⟨0, 0⟩ ⟨0, 0⟩ 4 100).CanSeeTarget ⟨0, 50⟩ = true := by
  have habs4 : |(4 : ℝ)| = 4 := abs_of_nonneg (by norm_num)
  have habs100 : |(100 : ℝ)| = 100 := abs_of_nonneg (by norm_num)
  rw [Camera2D.create_eq_mk, Vec2D.normalized_zero, habs4, habs100]
  have hne : ¬ Vec2D.veq ⟨0, 50⟩ ((Camera2D.mk ⟨0, 0⟩ ⟨0, 0⟩ 4 100).position) := by
    apply Vec2D.not_veq_of_y
    rw [sub_zero, abs_of_nonneg (show (0 : ℝ) ≤ 50 by norm_num)]
    unfold MAX_FLOAT_TOLERANCE
    norm_num
  have hd : ((⟨0, 50⟩ : Vec2D) - (Camera2D.mk ⟨0, 0⟩ ⟨0, 0⟩ 4 100).position).GetMagnitude ≤
      (Camera2D.mk ⟨0, 0⟩ ⟨0, 0⟩ 4 100).viewDistance := by
    show ((⟨0, 50⟩ : Vec2D) - ⟨0, 0⟩).GetMagnitude ≤ (100 : ℝ)
    rw [Vec2D.sub_mk]
    exact Vec2D.magnitude_le (0 - 0) (50 - 0) 100 (by norm_num) (by norm_num)
  exact (canSeeTarget_zero_orientation (Camera2D.mk ⟨0, 0⟩ ⟨0, 0⟩ 4 100) ⟨0, 50⟩ rfl
    hne hd).2.mpr (show Real.pi < (4 : ℝ) by linarith [Real.pi_lt_four])

/-- C2: a target strictly farther than the view distance is never seen,
while a target at distance exactly equal to the view distance counts as
in range: past the coincidence check it is visible as soon as it passes
the angular test. -/
theorem canSeeTarget_range_check (c : Camera2D) (t : Vec2D) :
    (c.viewDistance < (t - c.position).GetMagnitude → c.CanSeeTarget t = false) ∧
    ((t - c.position).GetMagnitude = c.viewDistance → ¬ Vec2D.veq t c.position →
      Real.arccos (c.orientation.DotProduct (t - c.position) /
        (t - c.position).GetMagnitude) < c.fieldOfView / 2 →
      c.CanSeeTarget t = true) := by
  constructor
  · intro h
    exact Camera2D.canSee_of_out_of_range (not_le.mpr h)
  · intro heq hne hang
    rw [Camera2D.canSee_true_iff hne (le_of_eq heq)]
    exact hang

/-- Witness for C2: a camera at the origin with view distance `100` does
not see the target `(0,300)` at distance `300`, and does see the target
`(0,100)` at distance exactly `100` straight along its orientation. -/
theorem canSeeTarget_range_check_witness :
    (Camera2D.create ⟨0, 0⟩ ⟨0, 1⟩ 3 100).CanSeeTarget ⟨0, 300⟩ = false ∧
    (Camera2D.create ⟨0, 0⟩ ⟨0, 1⟩ 3 100).CanSeeTarget ⟨0, 100⟩ = true := by
  have habs3 : |(3 : ℝ)| = 3 := abs_of_nonneg (by norm_num)
  have habs100 : |(100 : ℝ)| = 100 := abs_of_nonneg (by norm_num)
  rw [Camera2D.create_eq_mk, Vec2D.normalized_unit_up, habs3, habs100]
  constructor
  · apply (canSeeTarget_range_check (Camera2D.mk ⟨0, 0⟩ ⟨0, 1⟩ 3 100) ⟨0, 300⟩).1
    show (100 : ℝ) < ((⟨0, 300⟩ : Vec2D) - ⟨0, 0⟩).GetMagnitude
    rw [Vec2D.sub_mk,
      Vec2D.magnitude_eval (0 - 0) (300 - 0) 300 (by norm_num) (by norm_num)]
    norm_num
  · have hmag : ((⟨0, 100⟩ : Vec2D) - (Camera2D.mk ⟨0, 0⟩ ⟨0, 1⟩ 3 100).position).GetMagnitude =
        (100 : ℝ) := by
      show ((⟨0, 100⟩ : Vec2D) - ⟨0, 0⟩).GetMagnitude = (100 : ℝ)
      rw [Vec2D.sub_mk]
      exact Vec2D.magnitude_eval (0 - 0) (100 - 0) 100 (by norm_num) (by norm_num)
    apply (canSeeTarget_range_check (Camera2D.mk ⟨0, 0⟩ ⟨0, 1⟩ 3 100) ⟨0, 100⟩).2 hmag
    · apply Vec2D.not_veq_of_y
      rw [sub_zero, abs_of_nonneg (show (0 : ℝ) ≤ 100 by norm_num)]
      unfold MAX_FLOAT_TOLERANCE
      norm_num
    · rw [hmag]
      have hdot : (Camera2D.mk ⟨0, 0⟩ ⟨0, 1⟩ 3 100).orientation.DotProduct
          ((⟨0, 100⟩ : Vec2D) - (Camera2D.mk ⟨0, 0⟩ ⟨0, 1⟩ 3 100).position) = 100 := by
        show (0 : ℝ) * (0 - 0) + 1 * (100 - 0) = 100
        norm_num
      rw [hdot]
      rw [show (100 : ℝ) / 100 = 1 by norm_num, Real.arccos_one]
      show (0 : ℝ) < 3 / 2
      norm_num

/-- C1: the angular test of `CanSeeTarget` is the strict comparison
`angleToTarget < fieldOfView / 2`: past the coincidence and range checks
a target whose angle equals half the field of view is not visible and a
target whose angle is strictly smaller is; concretely, for a camera at
the origin with orientation `(0,1)`, field of view `π/2` and view
distance `100`, the boundary targets `(50,50)` and `(-50,50)` are not
visible while `(50,50.1)` and `(-50,50.1)` are. -/
theorem canSeeTarget_fov_boundary_strict :
    (∀ (c : Camera2D) (t : Vec2D), ¬ Vec2D.veq t c.position →
      (t - c.position).GetMagnitude ≤ c.viewDistance →
      Real.arccos (c.orientation.DotProduct (t - c.position) /
        (t - c.position).GetMagnitude) = c.fieldOfView / 2 →
      c.CanSeeTarget t = false) ∧
    (∀ (c : Camera2D) (t : Vec2D), ¬ Vec2D.veq t c.position →
      (t - c.position).GetMagnitude ≤ c.viewDistance →
      Real.arccos (c.orientation.DotProduct (t - c.position) /
        (t - c.position).GetMagnitude) < c.fieldOfView / 2 →
      c.CanSeeTarget t = true) ∧
    (Camera2D.create ⟨0, 0⟩ ⟨0, 1⟩ (Real.pi / 2) 100).CanSeeTarget ⟨50, 50⟩ = false ∧
    (Camera2D.create ⟨0, 0⟩ ⟨0, 1⟩ (Real.pi / 2) 100).CanSeeTarget ⟨50, 50.1⟩ = true ∧
    (Camera2D.create ⟨0, 0⟩ ⟨0, 1⟩ (Real.pi / 2) 100).CanSeeTarget ⟨-50, 50⟩ = false ∧
    (Camera2D.create ⟨0, 0⟩ ⟨0, 1⟩ (Real.pi / 2) 100).CanSeeTarget ⟨-50, 50.1⟩ = true := by
  have hcam : Camera2D.create ⟨0, 0⟩ ⟨0, 1⟩ (Real.pi / 2) 100 =
      Camera2D.mk ⟨0, 0⟩ ⟨0, 1⟩ (Real.pi / 2) 100 := by
    rw [Camera2D.create_eq_mk, Vec2D.normalized_unit_up,
      abs_of_nonneg (show (0 : ℝ) ≤ Real.pi / 2 by linarith [Real.pi_pos]),
      abs_of_nonneg (show (0 : ℝ) ≤ 100 by norm_num)]
  have hhalf : Real.pi / 2 / 2 = Real.pi / 4 := by ring
  refine ⟨?_, ?_, ?_, ?_, ?_, ?_⟩
  · intro c t hne hd heq
    rw [Camera2D.canSee_false_iff hne hd, heq]
    exact lt_irrefl _
  · intro c t hne hd hlt
    rw [Camera2D.canSee_true_iff hne hd]
    exact hlt
  · rw [hcam]
    have hne : ¬ Vec2D.veq ⟨50, 50⟩ ((Camera2D.mk ⟨0, 0⟩ ⟨0, 1⟩ (Real.pi / 2) 100).position) := by
      apply Vec2D.not_veq_of_x
      rw [sub_zero, abs_of_nonneg (show (0 : ℝ) ≤ 50 by norm_num)]
      unfold MAX_FLOAT_TOLERANCE
      norm_num
    have hd : ((⟨50, 50⟩ : Vec2D) - (Camera2D.mk ⟨0, 0⟩ ⟨0, 1⟩ (Real.pi / 2) 100).position).GetMagnitude ≤
        (Camera2D.mk ⟨0, 0⟩ ⟨0, 1⟩ (Real.pi / 2) 100).viewDistance := by
      show ((⟨50, 50⟩ : Vec2D) - ⟨0, 0⟩).GetMagnitude ≤ (100 : ℝ)
      rw [Vec2D.sub_mk]
      exact Vec2D.magnitude_le (50 - 0) (50 - 0) 100 (by norm_num) (by norm_num)
    rw [Camera2D.canSee_false_iff hne hd]
    have hsub : (⟨50, 50⟩ : Vec2D) - ⟨0, 0⟩ = ⟨50, 50⟩ := by
      rw [Vec2D.sub_mk]; norm_num
    show ¬ Real.arccos ((Vec2D.mk 0 1).DotProduct ((⟨50, 50⟩ : Vec2D) - ⟨0, 0⟩) /
      ((⟨50, 50⟩ : Vec2D) - ⟨0, 0⟩).GetMagnitude) < Real.pi / 2 / 2
    rw [hsub]
    have hdot : (Vec2D.mk 0 1).DotProduct ⟨50, 50⟩ = 50 := by
      show (0 : ℝ) * 50 + 1 * 50 = 50
      norm_num
    have hratio : (50 : ℝ) / (Vec2D.mk 50 50).GetMagnitude = Real.sqrt (1 / 2) := by
      rw [div_magnitude_eq_sqrt (show (0 : ℝ) ≤ 50 by norm_num)]
      rw [show (50 : ℝ) * 50 / (50 * 50 + 50 * 50) = 1 / 2 by norm_num]
    rw [hdot, hratio, arccos_sqrt_half, hhalf]
    exact lt_irrefl _
  · rw [hcam]
    have hne : ¬ Vec2D.veq ⟨50, 50.1⟩ ((Camera2D.mk ⟨0, 0⟩ ⟨0, 1⟩ (Real.pi / 2) 100).position) := by
      apply Vec2D.not_veq_of_x
      rw [sub_zero, abs_of_nonneg (show (0 : ℝ) ≤ 50 by norm_num)]
      unfold MAX_FLOAT_TOLERANCE
      norm_num
    have hd : ((⟨50, 50.1⟩ : Vec2D) - (Camera2D.mk ⟨0, 0⟩ ⟨0, 1⟩ (Real.pi / 2) 100).position).GetMagnitude ≤
        (Camera2D.mk ⟨0, 0⟩ ⟨0, 1⟩ (Real.pi / 2) 100).viewDistance := by
      show ((⟨50, 50.1⟩ : Vec2D) - ⟨0, 0⟩).GetMagnitude ≤ (100 : ℝ)
      rw [Vec2D.sub_mk]
      exact Vec2D.magnitude_le (50 - 0) (50.1 - 0) 100 (by norm_num) (by norm_num)
    rw [Camera2D.canSee_true_iff hne hd]
    have hsub : (⟨50, 50.1⟩ : Vec2D) - ⟨0, 0⟩ = ⟨50, 50.1⟩ := by
      rw [Vec2D.sub_mk]; norm_num
    show Real.arccos ((Vec2D.mk 0 1).DotProduct ((⟨50, 50.1⟩ : Vec2D) - ⟨0, 0⟩) /
      ((⟨50, 50.1⟩ : Vec2D) - ⟨0, 0⟩).GetMagnitude) < Real.pi / 2 / 2
    rw [hsub]
    have hdot : (Vec2D.mk 0 1).DotProduct ⟨50, 50.1⟩ = 50.1 := by
      show (0 : ℝ) * 50 + 1 * 50.1 = 50.1
      norm_num
    have hratio : (50.1 : ℝ) / (Vec2D.mk 50 50.1).GetMagnitude =
        Real.sqrt (2510.01 / 5010.01) := by
      rw [div_magnitude_eq_sqrt (show (0 : ℝ) ≤ 50.1 by norm_num)]
      rw [show (50.1 : ℝ) * 50.1 / (50 * 50 + 50.1 * 50.1) = 2510.01 / 5010.01 by norm_num]
    rw [hdot, hratio, hhalf, ← arccos_sqrt_half]
    apply arccos_lt_of_gt
    · exact le_trans (by norm_num) (Real.sqrt_nonneg _)
    · exact Real.sqrt_lt_sqrt (by norm_num) (by norm_num)
    · exact Real.sqrt_le_one.mpr (by norm_num)
  · rw [hcam]
    have hne : ¬ Vec2D.veq ⟨-50, 50⟩ ((Camera2D.mk ⟨0, 0⟩ ⟨0, 1⟩ (Real.pi / 2) 100).position) := by
      apply Vec2D.not_veq_of_x
      rw [sub_zero, abs_of_nonpos (show (-50 : ℝ) ≤ 0 by norm_num)]
      unfold MAX_FLOAT_TOLERANCE
      norm_num
    have hd : ((⟨-50, 50⟩ : Vec2D) - (Camera2D.mk ⟨0, 0⟩ ⟨0, 1⟩ (Real.pi / 2) 100).position).GetMagnitude ≤
        (Camera2D.mk ⟨0, 0⟩ ⟨0, 1⟩ (Real.pi / 2) 100).viewDistance := by
      show ((⟨-50, 50⟩ : Vec2D) - ⟨0, 0⟩).GetMagnitude ≤ (100 : ℝ)
      rw [Vec2D.sub_mk]
      exact Vec2D.magnitude_le (-50 - 0) (50 - 0) 100 (by norm_num) (by norm_num)
    rw [Camera2D.canSee_false_iff hne hd]
    have hsub : (⟨-50, 50⟩ : Vec2D) - ⟨0, 0⟩ = ⟨-50, 50⟩ := by
      rw [Vec2D.sub_mk]; norm_num
    show ¬ Real.arccos ((Vec2D.mk 0 1).DotProduct ((⟨-50, 50⟩ : Vec2D) - ⟨0, 0⟩) /
      ((⟨-50, 50⟩ : Vec2D) - ⟨0, 0⟩).GetMagnitude) < Real.pi / 2 / 2
    rw [hsub]
    have hdot : (Vec2D.mk 0 1).DotProduct ⟨-50, 50⟩ = 50 := by
      show (0 : ℝ) * (-50) + 1 * 50 = 50
      norm_num
    have hratio : (50 : ℝ) / (Vec2D.mk (-50) 50).GetMagnitude = Real.sqrt (1 / 2) := by
      rw [div_magnitude_eq_sqrt (show (0 : ℝ) ≤ 50 by norm_num)]
      rw [show (50 : ℝ) * 50 / (-50 * -50 + 50 * 50) = 1 / 2 by norm_num]
    rw [hdot, hratio, arccos_sqrt_half, hhalf]
    exact lt_irrefl _
  · rw [hcam]
    have hne : ¬ Vec2D.veq ⟨-50, 50.1⟩ ((Camera2D.mk ⟨0, 0⟩ ⟨0, 1⟩ (Real.pi / 2) 100).position) := by
      apply Vec2D.not_veq_of_x
      rw [sub_zero, abs_of_nonpos (show (-50 : ℝ) ≤ 0 by norm_num)]
      unfold MAX_FLOAT_TOLERANCE
      norm_num
    have hd : ((⟨-50, 50.1⟩ : Vec2D) - (Camera2D.mk ⟨0, 0⟩ ⟨0, 1⟩ (Real.pi / 2) 100).position).GetMagnitude ≤
        (Camera2D.mk ⟨0, 0⟩ ⟨0, 1⟩ (Real.pi / 2) 100).viewDistance := by
      show ((⟨-50, 50.1⟩ : Vec2D) - ⟨0, 0⟩).GetMagnitude ≤ (100 : ℝ)
      rw [Vec2D.sub_mk]
      exact Vec2D.magnitude_le (-50 - 0) (50.1 - 0) 100 (by norm_num) (by norm_num)
    rw [Camera2D.canSee_true_iff hne hd]
    have hsub : (⟨-50, 50.1⟩ : Vec2D) - ⟨0, 0⟩ = ⟨-50, 50.1⟩ := by
      rw [Vec2D.sub_mk]; norm_num
    show Real.arccos ((Vec2D.mk 0 1).DotProduct ((⟨-50, 50.1⟩ : Vec2D) - ⟨0, 0⟩) /
      ((⟨-50, 50.1⟩ : Vec2D) - ⟨0, 0⟩).GetMagnitude) < Real.pi / 2 / 2
    rw [hsub]
    have hdot : (Vec2D.mk 0 1).DotProduct ⟨-50, 50.1⟩ = 50.1 := by
      show (0 : ℝ) * (-50) + 1 * 50.1 = 50.1
      norm_num
    have hratio : (50.1 : ℝ) / (Vec2D.mk (-50) 50.1).GetMagnitude =
        Real.sqrt (2510.01 / 5010.01) := by
      rw [div_magnitude_eq_sqrt (show (0 : ℝ) ≤ 50.1 by norm_num)]
      rw [show (50.1 : ℝ) * 50.1 / (-50 * -50 + 50.1 * 50.1) = 2510.01 / 5010.01 by norm_num]
    rw [hdot, hratio, hhalf, ← arccos_sqrt_half]
    apply arccos_lt_of_gt
    · exact le_trans (by norm_num) (Real.sqrt_nonneg _)
    · exact Real.sqrt_lt_sqrt (by norm_num) (by norm_num)
    · exact Real.sqrt_le_one.mpr (by norm_num)

/-- Witness for C1: the general boundary case applied to a camera with
field of view `π` and the orthogonal target `(50,0)` at angle exactly
`π/2`, and the general interior case applied to a camera with field of
view `3` and the straight-ahead target `(0,50)` at angle `0`. -/
theorem canSeeTarget_fov_boundary_strict_witness :
    (Camera2D.mk ⟨0, 0⟩ ⟨0, 1⟩ Real.pi 100).CanSeeTarget ⟨50, 0⟩ = false ∧
    (Camera2D.mk ⟨0, 0⟩ ⟨0, 1⟩ 3 100).CanSeeTarget ⟨0, 50⟩ = true := by
  constructor
  · apply canSeeTarget_fov_boundary_strict.1 (Camera2D.mk ⟨0, 0⟩ ⟨0, 1⟩ Real.pi 100) ⟨50, 0⟩
    · apply Vec2D.not_veq_of_x
      rw [sub_zero, abs_of_nonneg (show (0 : ℝ) ≤ 50 by norm_num)]
      unfold MAX_FLOAT_TOLERANCE
      norm_num
    · show ((⟨50, 0⟩ : Vec2D) - ⟨0, 0⟩).GetMagnitude ≤ (100 : ℝ)
      rw [Vec2D.sub_mk]
      exact Vec2D.magnitude_le (50 - 0) (0 - 0) 100 (by norm_num) (by norm_num)
    · show Real.arccos ((Vec2D.mk 0 1).DotProduct ((⟨50, 0⟩ : Vec2D) - ⟨0, 0⟩) /
        ((⟨50, 0⟩ : Vec2D) - ⟨0, 0⟩).GetMagnitude) = Real.pi / 2
      have hdot : (Vec2D.mk 0 1).DotProduct ((⟨50, 0⟩ : Vec2D) - ⟨0, 0⟩) = 0 := by
        show (0 : ℝ) * (50 - 0) + 1 * (0 - 0) = 0
        norm_num
      rw [hdot, zero_div, Real.arccos_zero]
  · apply canSeeTarget_fov_boundary_strict.2.1 (Camera2D.mk ⟨0, 0⟩ ⟨0, 1⟩ 3 100) ⟨0, 50⟩
    · apply Vec2D.not_veq_of_y
      rw [sub_zero, abs_of_nonneg (show (0 : ℝ) ≤ 50 by norm_num)]
      unfold MAX_FLOAT_TOLERANCE
      norm_num
    · show ((⟨0, 50⟩ : Vec2D) - ⟨0, 0⟩).GetMagnitude ≤ (100 : ℝ)
      rw [Vec2D.sub_mk]
      exact Vec2D.magnitude_le (0 - 0) (50 - 0) 100 (by norm_num) (by norm_num)
    · show Real.arccos ((Vec2D.mk 0 1).DotProduct ((⟨0, 50⟩ : Vec2D) - ⟨0, 0⟩) /
        ((⟨0, 50⟩ : Vec2D) - ⟨0, 0⟩).GetMagnitude) < 3 / 2
      have hdot : (Vec2D.mk 0 1).DotProduct ((⟨0, 50⟩ : Vec2D) - ⟨0, 0⟩) = 50 := by
        show (0 : ℝ) * (0 - 0) + 1 * (50 - 0) = 50
        norm_num
      have hmag : ((⟨0, 50⟩ : Vec2D) - ⟨0, 0⟩).GetMagnitude = 50 := by
        rw [Vec2D.sub_mk]
        exact Vec2D.magnitude_eval (0 - 0) (50 - 0) 50 (by norm_num) (by norm_num)
      rw [hdot, hmag, show (50 : ℝ) / 50 = 1 by norm_num, Real.arccos_one]
      norm_num
